import Mathlib

/-!
Verification of the planka-notifications webhook relay (`src/index.js`).

The JavaScript source is shallowly embedded: JSON values become the
inductive type `JValue` (with `Option JValue` standing for a possibly
`undefined` value, `none` = JS `undefined`/absent), `JSON.parse` is
modelled at its boundary (`Option JValue` input to
`extractWebhookDetails`, `none` = parse failure, i.e. `JSON.parse`
throwing), and each core function of the source is translated into an
executable Lean definition.  Strings are compared and scanned per
character; the regex and keyword classes used by the source are pure
ASCII, so the UTF-16 / code-point difference between JS and Lean strings
is invisible to every property below.
-/

/-- A parsed JSON value, as produced by `JSON.parse`.  Object field lists
are the parse result, so keys are unique (JSON.parse keeps one entry per
key). -/
inductive JValue where
  | null
  | bool (b : Bool)
  | num (n : Int)
  | str (s : String)
  | arr (elems : List JValue)
  | obj (fields : List (String × JValue))
deriving Repr

mutual

/-- Decidable structural equality for `JValue`. -/
def JValue.decEq : (a b : JValue) → Decidable (a = b)
  | .null, .null => isTrue rfl
  | .null, .bool _ => isFalse (fun h => nomatch h)
  | .null, .num _ => isFalse (fun h => nomatch h)
  | .null, .str _ => isFalse (fun h => nomatch h)
  | .null, .arr _ => isFalse (fun h => nomatch h)
  | .null, .obj _ => isFalse (fun h => nomatch h)
  | .bool _, .null => isFalse (fun h => nomatch h)
  | .bool a, .bool b =>
    if h : a = b then isTrue (h ▸ rfl) else isFalse (fun hh => h (JValue.bool.inj hh))
  | .bool _, .num _ => isFalse (fun h => nomatch h)
  | .bool _, .str _ => isFalse (fun h => nomatch h)
  | .bool _, .arr _ => isFalse (fun h => nomatch h)
  | .bool _, .obj _ => isFalse (fun h => nomatch h)
  | .num _, .null => isFalse (fun h => nomatch h)
  | .num _, .bool _ => isFalse (fun h => nomatch h)
  | .num a, .num b =>
    if h : a = b then isTrue (h ▸ rfl) else isFalse (fun hh => h (JValue.num.inj hh))
  | .num _, .str _ => isFalse (fun h => nomatch h)
  | .num _, .arr _ => isFalse (fun h => nomatch h)
  | .num _, .obj _ => isFalse (fun h => nomatch h)
  | .str _, .null => isFalse (fun h => nomatch h)
  | .str _, .bool _ => isFalse (fun h => nomatch h)
  | .str _, .num _ => isFalse (fun h => nomatch h)
  | .str a, .str b =>
    if h : a = b then isTrue (h ▸ rfl) else isFalse (fun hh => h (JValue.str.inj hh))
  | .str _, .arr _ => isFalse (fun h => nomatch h)
  | .str _, .obj _ => isFalse (fun h => nomatch h)
  | .arr _, .null => isFalse (fun h => nomatch h)
  | .arr _, .bool _ => isFalse (fun h => nomatch h)
  | .arr _, .num _ => isFalse (fun h => nomatch h)
  | .arr _, .str _ => isFalse (fun h => nomatch h)
  | .arr xs, .arr ys =>
    match decEqListJ xs ys with
    | isTrue h => isTrue (h ▸ rfl)
    | isFalse h => isFalse (fun hh => h (JValue.arr.inj hh))
  | .arr _, .obj _ => isFalse (fun h => nomatch h)
  | .obj _, .null => isFalse (fun h => nomatch h)
  | .obj _, .bool _ => isFalse (fun h => nomatch h)
  | .obj _, .num _ => isFalse (fun h => nomatch h)
  | .obj _, .str _ => isFalse (fun h => nomatch h)
  | .obj _, .arr _ => isFalse (fun h => nomatch h)
  | .obj xs, .obj ys =>
    match decEqObjJ xs ys with
    | isTrue h => isTrue (h ▸ rfl)
    | isFalse h => isFalse (fun hh => h (JValue.obj.inj hh))

def decEqListJ : (xs ys : List JValue) → Decidable (xs = ys)
  | [], [] => isTrue rfl
  | [], _ :: _ => isFalse (fun h => nomatch h)
  | _ :: _, [] => isFalse (fun h => nomatch h)
  | x :: xs, y :: ys =>
    match JValue.decEq x y with
    | isTrue h1 =>
      match decEqListJ xs ys with
      | isTrue h2 => isTrue (by rw [h1, h2])
      | isFalse h2 => isFalse (fun hh => by
          simp only [List.cons.injEq] at hh
          exact h2 hh.2)
    | isFalse h1 => isFalse (fun hh => by
        simp only [List.cons.injEq] at hh
        exact h1 hh.1)

def decEqObjJ : (xs ys : List (String × JValue)) → Decidable (xs = ys)
  | [], [] => isTrue rfl
  | [], _ :: _ => isFalse (fun h => nomatch h)
  | _ :: _, [] => isFalse (fun h => nomatch h)
  | (k, v) :: xs, (k2, v2) :: ys =>
    if hk : k = k2 then
      match JValue.decEq v v2 with
      | isTrue hv =>
        match decEqObjJ xs ys with
        | isTrue ht => isTrue (by rw [hk, hv, ht])
        | isFalse ht => isFalse (fun hh => by
            simp only [List.cons.injEq] at hh
            exact ht hh.2)
      | isFalse hv => isFalse (fun hh => by
          simp only [List.cons.injEq, Prod.mk.injEq] at hh
          exact hv hh.1.2)
    else isFalse (fun hh => by
        simp only [List.cons.injEq, Prod.mk.injEq] at hh
        exact hk hh.1.1)

end

instance : DecidableEq JValue := JValue.decEq

/-- JavaScript truthiness of a JSON value. -/
def JValue.truthy : JValue → Bool
  | .null => false
  | .bool b => b
  | .num n => n != 0
  | .str s => s != ""
  | .arr _ => true
  | .obj _ => true

/-- Truthiness of a possibly-`undefined` value (`none` = `undefined`). -/
def jTruthy : Option JValue → Bool
  | some v => v.truthy
  | none => false

/-- JS property read `v[key]` for a JSON value: defined for objects,
`undefined` (`none`) otherwise (numbers, strings, arrays and booleans
have no own property named like the keys used by the source). -/
def JValue.getField : JValue → String → Option JValue
  | .obj fields, key => fields.lookup key
  | _, _ => none

/-- Optional chaining `v?.key` (also models destructuring from
`v || {}`): `undefined`/`null`-safe property read. -/
def jGet (v : Option JValue) (key : String) : Option JValue :=
  match v with
  | some jv => jv.getField key
  | none => none

/-- JS `a || b` on possibly-`undefined` values: `a` when truthy, else `b`. -/
def jvOr (a b : Option JValue) : Option JValue :=
  match a with
  | some v => if v.truthy then some v else b
  | none => b

/-- JS `a || null`: `a` when truthy, else `null` (we collapse the JS
`null` default into `none`, since the source never distinguishes the two
afterwards). -/
def jvOrNull (a : Option JValue) : Option JValue :=
  match a with
  | some v => if v.truthy then some v else none
  | none => none

mutual

/-- JS string conversion `String(v)` of a JSON value, as used by
template literals in the source. -/
def JValue.display : JValue → String
  | .null => "null"
  | .bool b => if b then "true" else "false"
  | .num n => toString n
  | .str s => s
  | .arr xs => String.intercalate "," (displayElems xs)
  | .obj _ => "[object Object]"

/-- Array elements stringify elementwise, with `null` elements rendered
as the empty string (JS `Array.prototype.toString`). -/
def displayElems : List JValue → List String
  | [] => []
  | x :: xs => (match x with | .null => "" | v => v.display) :: displayElems xs

end

/-- JS `v || dflt` where the result is consumed as a string (template
literal): the value's string form when truthy, else the default. -/
def jsOrDefault (v : Option JValue) (dflt : String) : String :=
  match v with
  | some jv => if jv.truthy then jv.display else dflt
  | none => dflt

/-- JS template-literal interpolation of a possibly-`undefined` value. -/
def jTemplate : Option JValue → String
  | some jv => jv.display
  | none => "undefined"

/-- JS `v?.[0]`: first element of an array (or the `"0"` property of an
object). -/
def jIndex0 : Option JValue → Option JValue
  | some (.arr (x :: _)) => some x
  | some (.obj fields) => fields.lookup "0"
  | _ => none

/-- Substring test on character lists (JS `String.prototype.includes`). -/
def hasSubL (pat l : List Char) : Bool := decide (pat <:+: l)

/-- JS `v.includes(pat)` guarded to string receivers (the source only
reaches `.includes` behind a truthiness test; a truthy non-string
receiver would throw in JS, is outside the domain of every claim, and is
modelled as `false`). -/
def jIncludes (v : Option JValue) (pat : String) : Bool :=
  match v with
  | some (.str s) => hasSubL pat.data s.data
  | _ => false

/-- JS strict equality `v === s` against a string literal. -/
def jsEventIs (v : Option JValue) (s : String) : Bool :=
  match v with
  | some (.str t) => t == s
  | _ => false

/-- Whether a JSON value is a JS primitive (strict equality `!==` on
primitives is structural; on objects/arrays it is reference identity). -/
def JValue.isPrimitive : JValue → Bool
  | .arr _ => false
  | .obj _ => false
  | _ => true

def optPrim : Option JValue → Bool
  | none => true
  | some v => v.isPrimitive

/-- JS strict inequality `a !== b` between two field values taken from
two distinct `JSON.parse` results: structural on primitives, and always
`true` when either side is an object/array (distinct parse trees share
no references) or when the two sides have different types. -/
def jsStrictNe : Option JValue → Option JValue → Bool
  | none, none => false
  | some .null, some .null => false
  | some (.bool a), some (.bool b) => a != b
  | some (.num a), some (.num b) => a != b
  | some (.str a), some (.str b) => a != b
  | some _, some _ => true
  | none, some _ => true
  | some _, none => true

/-! ## Notification-target extractor (`parseNotifyChannels`, src/index.js lines 61-90) -/

/-- The regex body class `[a-zA-Z0-9_-]`. -/
def isWordChar (c : Char) : Bool := c.isAlpha || c.isDigit || c == '_' || c == '-'

/-- The regex sigil class `[&#@]`. -/
def isTargetSigil (c : Char) : Bool := c == '&' || c == '#' || c == '@'

/-- All matches of the global regex `[&#@][a-zA-Z0-9_-]+` in left-to-right
order (`trimmedLine.match(...)` in the source).  A match starts at a sigil
whose following run of word characters is nonempty, and extends through
that maximal run.  Re-examining the characters inside an emitted token
(instead of jumping past it as the regex engine does) finds no further
matches, because a token body consists of word characters only and a
match can only start at a sigil; so this single-pass recursion produces
exactly the regex's match list. -/
def scanTargets : List Char → List String
  | [] => []
  | c :: rest =>
    let tok := rest.takeWhile isWordChar
    if isTargetSigil c && !tok.isEmpty then
      String.mk (c :: tok) :: scanTargets rest
    else scanTargets rest

/-- The whitespace class trimmed by JS `String.prototype.trim` (ASCII
part; trimming only ever removes characters that are neither sigils, nor
word characters, nor keyword letters, so the exact class is immaterial
to every result below). -/
def isSpaceChar (c : Char) : Bool :=
  c == ' ' || c == '\t' || c == '\n' || c == '\r' || c == '\x0b' || c == '\x0c'

/-- JS `line.trim()`. -/
def jsTrim (l : List Char) : List Char :=
  ((l.dropWhile isSpaceChar).reverse.dropWhile isSpaceChar).reverse

/-- JS `toLowerCase` (ASCII; the keywords searched for are pure ASCII and
no non-ASCII character lowercases directly to an ASCII letter). -/
def toLowerL (l : List Char) : List Char := l.map Char.toLower

/-- The keyword test `trimmedLine.toLowerCase().includes('notify') || ....includes('notification')`. -/
def keywordHit (line : List Char) : Bool :=
  hasSubL "notify".data (toLowerL line) || hasSubL "notification".data (toLowerL line)

/-- JS `description.split('\n')`. -/
def splitLines : List Char → List (List Char)
  | [] => [[]]
  | c :: rest =>
    if c == '\n' then [] :: splitLines rest
    else
      match splitLines rest with
      | l :: ls => (c :: l) :: ls
      | [] => [[c]]

/-- The push `if (!targets.includes(target)) targets.push(target)`. -/
def addUnique (acc : List String) (t : String) : List String :=
  if acc.contains t then acc else acc ++ [t]

/-- One iteration of the source's `for (const line of lines)` loop. -/
def processLine (acc : List String) (line : List Char) : List String :=
  let trimmed := jsTrim line
  if keywordHit trimmed then (scanTargets trimmed).foldl addUnique acc else acc

/-- Body of `parseNotifyChannels` for a nonempty string argument. -/
def notifyCore (s : String) : List String :=
  (splitLines s.data).foldl processLine []

/-- The function `parseNotifyChannels(description)` (src/index.js lines 61-90).  The
argument is the JS value passed in (`none` = `undefined`/`null`); the
guard models `if (!description || typeof description !== 'string')
return []`. -/
def parseNotifyChannels : Option JValue → List String
  | some (.str s) => if s = "" then [] else notifyCore s
  | _ => []

/-! Spec-side notions for the extractor claims: the stream of candidate
targets in scan order (lines top-to-bottom, left-to-right within a
line), and first-occurrence-wins deduplication. -/

/-- Candidates contributed by one line, in left-to-right order. -/
def lineCandidates (line : List Char) : List String :=
  let trimmed := jsTrim line
  if keywordHit trimmed then scanTargets trimmed else []

/-- All candidate targets of a text in scan order. -/
def candidateTargets (s : String) : List String :=
  (splitLines s.data).flatMap lineCandidates

/-- Order-preserving, first-occurrence-wins deduplication. -/
def dedupFirst : List String → List String
  | [] => []
  | x :: xs => x :: dedupFirst (xs.filter (fun y => y != x))
termination_by l => l.length
decreasing_by
  exact Nat.lt_succ_of_le (List.length_filter_le _ _)

/-- The shape every extracted target must have: one sigil character
followed by at least one word character and nothing else (word
characters are never sigils, so the leading sigil is unique). -/
def targetShape (t : String) : Bool :=
  match t.data with
  | c :: rest => isTargetSigil c && !rest.isEmpty && rest.all isWordChar
  | [] => false

/-! ## Event detail extractor (`extractWebhookDetails`, src/index.js lines 121-219) -/

/-- The normalized per-event detail record (`details` in the source;
`slackTargets` is the spec's `notificationTargets`, `changes` the spec's
`changeSummaries`).  `taskCompleted` stores the truthiness of the JS
value `item.isCompleted || false`, which the source only ever consumes
through truthiness tests. -/
structure Details where
  cardTitle : String
  boardName : String
  listName : String
  username : String
  slackTargets : List String
  commentText : Option String
  isComment : Bool
  isTask : Bool
  taskName : Option String
  taskCompleted : Bool
  description : Option JValue
  changes : List String
deriving Repr, DecidableEq

/-- The shared defaults object `DEFAULT_DETAILS` (src/index.js lines 16-29): field order cardTitle,
boardName, listName, username, slackTargets, commentText, isComment,
isTask, taskName, taskCompleted, description, changes. -/
def DEFAULT_DETAILS : Details :=
  ⟨"N/A", "N/A", "N/A", "N/A", [], none, false, false, none, false, none, []⟩

/-- Modelled from the spec: `new Date(x).toLocaleDateString()` is a
platform (locale-dependent) date formatter outside this repository; the
spec only requires "formatted old→new or none", so the formatter is
modelled as displaying the raw value. -/
def localeDateString (v : JValue) : String := v.display

/-- The due-date rendering `x ? new Date(x).toLocaleDateString() : 'none'`. -/
def formatDueDate (v : Option JValue) : String :=
  match v with
  | some jv => if jv.truthy then localeDateString jv else "none"
  | none => "none"

/-- The `details.changes` computation for `cardUpdate` events with a
previous item (src/index.js lines 178-215): five sequential pushes, one
per differing field, in source order. -/
def cardUpdateChanges (prevItemV itemV : JValue) (prevData included : Option JValue) :
    List String :=
  (if jsStrictNe (prevItemV.getField "name") (itemV.getField "name") then
    ["title: \"" ++ jTemplate (prevItemV.getField "name") ++ "\" → \""
      ++ jTemplate (itemV.getField "name") ++ "\""]
  else []) ++
  (if jsStrictNe (prevItemV.getField "description") (itemV.getField "description") then
    ["description updated"]
  else []) ++
  (if jsStrictNe (prevItemV.getField "dueDate") (itemV.getField "dueDate") then
    ["due date: " ++ formatDueDate (prevItemV.getField "dueDate") ++ " → "
      ++ formatDueDate (itemV.getField "dueDate")]
  else []) ++
  (if jsStrictNe (prevItemV.getField "listId") (itemV.getField "listId") then
    ["moved: "
      ++ jsOrDefault (jGet (jIndex0 (jGet (jGet prevData "included") "lists")) "name") "unknown"
      ++ " → " ++ jsOrDefault (jGet (jIndex0 (jGet included "lists")) "name") "unknown"]
  else []) ++
  (if jsStrictNe (prevItemV.getField "isCompleted") (itemV.getField "isCompleted") then
    [if jTruthy (itemV.getField "isCompleted") then "marked completed" else "marked incomplete"]
  else [])

/-- Body of `extractWebhookDetails` once `item` is known truthy
(src/index.js lines 136-216).  The embedding is total where the source
can throw a TypeError and return nothing: a truthy non-string
`data.event` (lines 138, 148), a null first element or an object shape
in `included.cards` (lines 145, 157), and a long non-string description
in the update diff (lines 189-193) are collapsed into defaulting
branches here; claims whose domain can reach those payloads carry the
`eventIncludesSafe`/`cardsAccessSafe`/`descriptionsSafe` hypotheses
defined below. -/
def extractBody (data itemV : JValue) : Details :=
  let event := data.getField "event"
  let webhookData := data.getField "data"
  let prevData := data.getField "prevData"
  let user := data.getField "user"
  let included := jGet webhookData "included"
  let prevItem := jGet prevData "item"
  let cards := jGet included "cards"
  let condComment := jTruthy event && (jIncludes event "Comment" || jIncludes event "comment")
  let condTask := jTruthy event && (jIncludes event "task" || jIncludes event "Task")
  let cardInfo : String × Option JValue :=
    match cards with
    | some (.arr (c0 :: _)) =>
      (jsOrDefault (c0.getField "name") "N/A", jvOrNull (c0.getField "description"))
    | _ => ("N/A", none)
  let cardTitle :=
    if condComment then cardInfo.1
    else if condTask then cardInfo.1
    else jsOrDefault (itemV.getField "name") "N/A"
  let description :=
    if condComment then cardInfo.2
    else if condTask then cardInfo.2
    else jvOrNull (itemV.getField "description")
  let commentText :=
    if condComment then
      some (jsOrDefault (jvOr (itemV.getField "text") (itemV.getField "content")) "N/A")
    else none
  let taskName :=
    if !condComment && condTask then some (jsOrDefault (itemV.getField "name") "N/A") else none
  let taskCompleted :=
    if !condComment && condTask then jTruthy (itemV.getField "isCompleted") else false
  let username := jsOrDefault (jvOr (jGet user "name") (jGet user "username")) "N/A"
  let boardName := jsOrDefault (jGet (jIndex0 (jGet included "boards")) "name") "N/A"
  let listName := jsOrDefault (jGet (jIndex0 (jGet included "lists")) "name") "N/A"
  let slackTargets := parseNotifyChannels description
  let changes :=
    if jTruthy prevItem && jsEventIs event "cardUpdate" then
      match prevItem with
      | some prevItemV => cardUpdateChanges prevItemV itemV prevData included
      | none => []
    else []
  ⟨cardTitle, boardName, listName, username, slackTargets, commentText,
    condComment, !condComment && condTask, taskName, taskCompleted, description, changes⟩

/-- The function `extractWebhookDetails(body)` (src/index.js lines 121-219), over the
result of `JSON.parse(body)`: `none` is a parse failure (the `catch`
branch), `some v` a successful parse. -/
def extractWebhookDetails : Option JValue → Details
  | none => DEFAULT_DETAILS
  | some data =>
    match jGet (data.getField "data") "item" with
    | some itemV => if itemV.truthy then extractBody data itemV else DEFAULT_DETAILS
    | none => DEFAULT_DETAILS

/-! ## Notification dispatcher (`shouldSendNotification`, src/index.js
lines 93-110; channel choice, lines 267-274) -/

/-- The fixed allow-list (src/index.js lines 95-107). -/
def relevantEvents : List String :=
  ["cardCreate", "cardUpdate", "cardEdit", "cardMove", "cardArchive",
   "cardRestore", "commentCreate", "commentUpdate", "taskCreate",
   "taskUpdate", "taskDelete"]

/-- The function `shouldSendNotification(event, details)` (src/index.js lines 93-110). -/
def shouldSendNotification (event : String) (details : Details) : Bool :=
  relevantEvents.contains event && decide (0 < details.slackTargets.length)

/-- JS `t.startsWith(c)` for a one-character pattern. -/
def jsStartsWith (t : String) (c : Char) : Bool :=
  match t.data with
  | d :: _ => d == c
  | [] => false

/-- The channel-shape test `target.startsWith('&') || target.startsWith('#')`. -/
def channelShaped (t : String) : Bool := jsStartsWith t '&' || jsStartsWith t '#'

/-- The fallback `config.slack.defaultChannel || '#general'` (`none` = unset; the
empty string is falsy). -/
def resolvedDefaultChannel : Option String → String
  | some c => if c = "" then "#general" else c
  | none => "#general"

/-- The spec's `pickTarget`: first channel-shaped target, if any
(src/index.js lines 269-274: `targets.filter(...)[0]`). -/
def pickTarget (targets : List String) : Option String :=
  (targets.filter channelShaped).head?

/-- The channel actually posted to (src/index.js lines 267-274). -/
def chooseChannel (defaultChannel : Option String) (targets : List String) : String :=
  match pickTarget targets with
  | some c => c
  | none => resolvedDefaultChannel defaultChannel

/-! ## Message formatter (`buildSlackMessage`, src/index.js lines 318-389) -/

/-- Color and text of the single attachment built by `buildSlackMessage`
(the `footer`/`ts` fields carry no claim-relevant content). -/
structure SlackMessage where
  color : String
  text : String
deriving Repr, DecidableEq

/-- The mention suffix `userTargets.length > 0 ? ' ' + userTargets.join(' ') : ''`. -/
def userMentionSuffix (targets : List String) : String :=
  let userTargets := targets.filter (fun t => jsStartsWith t '@')
  if 0 < userTargets.length then " " ++ String.intercalate " " userTargets else ""

/-- The `commentCreate` truncation: comments longer than 100 characters
are cut and suffixed with an ellipsis; a `null` comment renders as the
template string "null". -/
def truncateComment : Option String → String
  | some s => if 100 < s.length then s.take 100 ++ "..." else s
  | none => "null"

/-- JS template interpolation of `details.taskName` (`null` → "null"). -/
def taskNameStr (d : Details) : String :=
  match d.taskName with
  | some s => s
  | none => "null"

/-- The function `buildSlackMessage(event, details, targets)` (src/index.js lines
318-389): the switch over event kinds. -/
def buildSlackMessage (event : String) (details : Details) (targets : List String) :
    SlackMessage :=
  let userMentions := userMentionSuffix targets
  match event with
  | "cardCreate" =>
    ⟨"#36a64f", "🆕 *" ++ details.cardTitle ++ "*\nCreated by " ++ details.username
      ++ " in " ++ details.boardName ++ " › " ++ details.listName ++ userMentions⟩
  | "cardUpdate" | "cardEdit" =>
    if 0 < details.changes.length then
      let changesSummary := String.intercalate ", " (details.changes.take 3)
      let moreChanges :=
        if 3 < details.changes.length then
          " (+" ++ toString (details.changes.length - 3) ++ " more)"
        else ""
      ⟨"#ff9500", "✏️ *" ++ details.cardTitle ++ "*\n_" ++ changesSummary ++ moreChanges
        ++ "_\n" ++ details.username ++ " in " ++ details.boardName ++ " › "
        ++ details.listName ++ userMentions⟩
    else
      ⟨"#ff9500", "✏️ *" ++ details.cardTitle ++ "*\n_Updated by " ++ details.username
        ++ "_\n" ++ details.boardName ++ " › " ++ details.listName ++ userMentions⟩
  | "cardMove" =>
    ⟨"#007cba", "📤 *" ++ details.cardTitle ++ "*\nMoved to " ++ details.listName
      ++ " by " ++ details.username ++ userMentions⟩
  | "commentCreate" =>
    ⟨"#9c27b0", "💬 *" ++ details.cardTitle ++ "*\n_" ++ details.username ++ ":_ "
      ++ truncateComment details.commentText ++ userMentions⟩
  | "taskCreate" =>
    ⟨"#4caf50", "☑️ *" ++ details.cardTitle ++ "*\nNew task: \"" ++ taskNameStr details
      ++ "\"\n_Added by " ++ details.username ++ "_" ++ userMentions⟩
  | "taskUpdate" =>
    let taskStatus := if details.taskCompleted then "✅ completed" else "⬜ uncompleted"
    ⟨"#ff9800", "☑️ *" ++ details.cardTitle ++ "*\nTask \"" ++ taskNameStr details
      ++ "\" " ++ taskStatus ++ "\n_Updated by " ++ details.username ++ "_" ++ userMentions⟩
  | "taskDelete" =>
    ⟨"#f44336", "☑️ *" ++ details.cardTitle ++ "*\nTask \"" ++ taskNameStr details
      ++ "\" deleted\n_Removed by " ++ details.username ++ "_" ++ userMentions⟩
  | _ =>
    ⟨"#607d8b", "📋 *" ++ details.cardTitle ++ "*\n" ++ event ++ " by "
      ++ details.username ++ userMentions⟩

/-! ## Spec-side definitions for the claims -/

/-- Spec side of C9: at most the first 3 entries of `changeSummaries`
joined by ", "; when more than 3, a suffix " (+N more)" with N the count
beyond 3. -/
def renderedChangeSummary (changes : List String) : String :=
  String.intercalate ", " (changes.take 3)
    ++ (if 3 < changes.length then
          " (+" ++ toString (changes.length - 3) ++ " more)"
        else "")

/-- Spec side of C5: `username` from `user.name` when present and truthy,
else `user.username` when present and truthy, else "N/A". -/
def usernameOfUser (user : Option JValue) : String :=
  jsOrDefault (jvOr (jGet user "name") (jGet user "username")) "N/A"

/-!
The embedding is total, but the source can throw a TypeError part-way
through `extractWebhookDetails` and then returns no record at all.  The
three predicates below, modelled from the source's expressions, carve
out the payloads on which execution is guaranteed to reach the final
`return details`; claims about fields of "the record returned" are
stated on that domain.
-/

/-- Event values on which the pattern `data.event &&
data.event.includes(...)` (src/index.js lines 138, 148) evaluates
without a TypeError: falsy values short-circuit and strings support
`.includes`; a truthy non-string receiver throws in JS. -/
def eventIncludesSafe : Option JValue → Bool
  | some (.str _) => true
  | some v => !v.truthy
  | none => true

/-- Shapes of `included.cards` on which the card-info block
(src/index.js lines 143-147, 155-159) is guaranteed not to throw and to
match this embedding: absent or falsy values and non-object primitives
skip it or read properties of auto-boxed primitives (`undefined`, no
throw); arrays enter it when nonempty, and `cards[0].name` throws
exactly when the first element is null.  Object-shaped values are
excluded wholesale: their `length`/`"0"` properties can make the block
throw or read fields this embedding does not model. -/
def cardsAccessSafe : Option JValue → Bool
  | none => true
  | some (.obj _) => false
  | some (.arr (c0 :: _)) => !(c0 == JValue.null)
  | some _ => true

/-- The description fields compared at src/index.js lines 187-195 are
JSON scalars or absent: for scalars the guarded `.length > 20` test is
false or the value is a string (which supports `.substring`), while a
truthy array or object with a length over 20 would make `.substring` a
TypeError before the record is returned. -/
def descriptionsSafe (data itemV : JValue) : Bool :=
  optPrim (itemV.getField "description")
    && optPrim (jGet (jGet (data.getField "prevData") "item") "description")

/-- The event-kind contains "Comment" or "comment" as a substring (the
source's comment-classification test). -/
def containsCommentKeyword (e : String) : Bool :=
  hasSubL "Comment".data e.data || hasSubL "comment".data e.data

/-- The event-kind contains "task" or "Task" as a substring (the
source's task-classification test). -/
def containsTaskKeyword (e : String) : Bool :=
  hasSubL "task".data e.data || hasSubL "Task".data e.data

/-- The event-kind contains "comment" case-insensitively (the claimed,
stronger classification test of C4). -/
def containsCommentCI (e : String) : Bool :=
  hasSubL "comment".data (toLowerL e.data)

/-- The five compared fields of a card update, in source order. -/
def changeFieldKeys : List String :=
  ["name", "description", "dueDate", "listId", "isCompleted"]

/-- All five compared fields are JS primitives (or absent) on both the
previous and the current item — the domain on which JS `!==` is plain
structural inequality. -/
def fieldsPrimitive (prevItemV itemV : JValue) : Bool :=
  changeFieldKeys.all fun k => optPrim (prevItemV.getField k) && optPrim (itemV.getField k)

/-- Spec side of C6: exactly one entry per differing field (exact
equality), in the fixed order title, description, due date, list,
completion; equal fields contribute nothing. -/
def specChangeSummaries (prevItemV itemV : JValue) (oldListName newListName : String) :
    List String :=
  (if prevItemV.getField "name" = itemV.getField "name" then []
   else ["title: \"" ++ jTemplate (prevItemV.getField "name") ++ "\" → \""
          ++ jTemplate (itemV.getField "name") ++ "\""]) ++
  (if prevItemV.getField "description" = itemV.getField "description" then []
   else ["description updated"]) ++
  (if prevItemV.getField "dueDate" = itemV.getField "dueDate" then []
   else ["due date: " ++ formatDueDate (prevItemV.getField "dueDate") ++ " → "
          ++ formatDueDate (itemV.getField "dueDate")]) ++
  (if prevItemV.getField "listId" = itemV.getField "listId" then []
   else ["moved: " ++ oldListName ++ " → " ++ newListName]) ++
  (if prevItemV.getField "isCompleted" = itemV.getField "isCompleted" then []
   else [if jTruthy (itemV.getField "isCompleted") then "marked completed"
         else "marked incomplete"])

/-! Concrete payloads used by counterexamples and witnesses. -/

/-- An all-caps comment event: contains "comment" case-insensitively but
neither "Comment" nor "comment" as an exact substring. -/
def cexCommentPayload : JValue :=
  .obj [("event", .str "COMMENT"),
        ("data", .obj [("item", .obj [("text", .str "hi")])])]

/-- A payload with `user.name` present but no `data.item`. -/
def cexUserPayload : JValue :=
  .obj [("user", .obj [("name", .str "alice")])]

/-- A well-formed commentCreate payload. -/
def witCommentPayload : JValue :=
  .obj [("event", .str "commentCreate"),
        ("data", .obj [("item", .obj [("text", .str "hello")])]),
        ("user", .obj [("name", .str "alice")])]

/-- A well-formed cardCreate payload with a user. -/
def witCardPayload : JValue :=
  .obj [("event", .str "cardCreate"),
        ("data", .obj [("item", .obj [("name", .str "Card A")])]),
        ("user", .obj [("name", .str "bob")])]

/-- A cardUpdate payload whose only changed field is `listId`. -/
def witUpdatePayload : JValue :=
  .obj [("event", .str "cardUpdate"),
        ("data",
          .obj [("item", .obj [("name", .str "B"), ("listId", .str "L2")]),
                ("included", .obj [("lists", .arr [.obj [("name", .str "Doing")]])])]),
        ("prevData",
          .obj [("item", .obj [("name", .str "B"), ("listId", .str "L1")]),
                ("included", .obj [("lists", .arr [.obj [("name", .str "Todo")]])])]),
        ("user", .obj [("name", .str "alice")])]

/-- A details record with five change summaries (for the C9 witness). -/
def witManyChanges : Details :=
  ⟨"T", "Board", "List", "u", [], none, false, false, none, false, none,
    ["c1", "c2", "c3", "c4", "c5"]⟩

/-! ## Theorems: general lemmas -/

theorem jsStrictNe_eq_decide (a b : Option JValue)
    (ha : optPrim a = true) (hb : optPrim b = true) :
    jsStrictNe a b = decide (a ≠ b) := by
  rcases a with _ | a <;> rcases b with _ | b
  · simp [jsStrictNe]
  · simp [jsStrictNe]
  · simp [jsStrictNe]
  · rcases a with _ | a | a | a | xs | xs <;> rcases b with _ | b | b | b | ys | ys <;>
      simp_all [jsStrictNe, optPrim, JValue.isPrimitive, bne] <;>
      exact Bool.beq_eq_decide_eq a b

theorem scanTargets_shape (cs : List Char) :
    ∀ t ∈ scanTargets cs, targetShape t = true := by
  induction cs with
  | nil => simp [scanTargets]
  | cons c rest ih =>
    intro t ht
    simp only [scanTargets] at ht
    split at ht
    · rename_i hcond
      rcases List.mem_cons.mp ht with h | h
      · subst h
        simp only [Bool.and_eq_true] at hcond
        show (isTargetSigil c && !(rest.takeWhile isWordChar).isEmpty
              && (rest.takeWhile isWordChar).all isWordChar) = true
        simp only [Bool.and_eq_true]
        exact ⟨⟨hcond.1, hcond.2⟩,
          List.all_eq_true.mpr fun x hx => List.mem_takeWhile_imp hx⟩
      · exact ih t h
    · exact ih t ht

theorem splitLines_ne_nil (l : List Char) : splitLines l ≠ [] := by
  induction l with
  | nil => simp [splitLines]
  | cons c rest ih =>
    simp only [splitLines]
    split
    · simp
    · obtain ⟨x, xs, hx⟩ := List.exists_cons_of_ne_nil ih
      rw [hx]
      simp

theorem splitLines_append (xs ys : List Char) :
    splitLines (xs ++ '\n' :: ys) = splitLines xs ++ splitLines ys := by
  induction xs with
  | nil => simp [splitLines]
  | cons c rest ih =>
    by_cases hc : c = '\n'
    · subst hc
      simp [splitLines, ih]
    · obtain ⟨l, ls, hl⟩ := List.exists_cons_of_ne_nil (splitLines_ne_nil rest)
      have hc2 : (c == '\n') = false := by simpa using hc
      simp only [List.cons_append, splitLines, hc2, Bool.false_eq_true, if_false,
        List.append_eq, ih, hl]

theorem filter_swap (l : List String) (p q : String → Bool) :
    (l.filter p).filter q = (l.filter q).filter p := by
  simp only [List.filter_filter]
  exact List.filter_congr fun a _ => by rw [Bool.and_comm]

theorem dedupFirst_filter (l : List String) (p : String → Bool) :
    dedupFirst (l.filter p) = (dedupFirst l).filter p := by
  match l with
  | [] => simp [dedupFirst]
  | x :: xs =>
    by_cases hp : p x
    · rw [List.filter_cons_of_pos hp, dedupFirst, dedupFirst,
        List.filter_cons_of_pos hp, filter_swap,
        dedupFirst_filter (xs.filter fun y => y != x) p]
    · rw [List.filter_cons_of_neg (by simpa using hp), dedupFirst,
        List.filter_cons_of_neg (by simpa using hp)]
      have hx : (xs.filter p).filter (fun y => y != x) = xs.filter p := by
        apply List.filter_eq_self.mpr
        intro a ha
        have hpa : p a = true := List.of_mem_filter ha
        have : a ≠ x := fun hax => by rw [hax] at hpa; exact hp hpa
        simpa using this
      rw [← hx, filter_swap, dedupFirst_filter (xs.filter fun y => y != x) p]
termination_by l.length
decreasing_by
  all_goals exact Nat.lt_succ_of_le (List.length_filter_le _ _)

theorem mem_dedupFirst (a : String) (l : List String) : a ∈ dedupFirst l ↔ a ∈ l := by
  match l with
  | [] => simp [dedupFirst]
  | x :: xs =>
    rw [dedupFirst]
    by_cases hax : a = x
    · subst hax; simp
    · simp only [List.mem_cons, hax, false_or]
      rw [mem_dedupFirst a (xs.filter fun y => y != x)]
      constructor
      · intro h; exact List.mem_of_mem_filter h
      · intro h; exact List.mem_filter.mpr ⟨h, by simpa using hax⟩
termination_by l.length
decreasing_by
  exact Nat.lt_succ_of_le (List.length_filter_le _ _)

theorem nodup_dedupFirst (l : List String) : (dedupFirst l).Nodup := by
  match l with
  | [] => simp [dedupFirst]
  | x :: xs =>
    rw [dedupFirst]
    refine List.nodup_cons.mpr ⟨?_, nodup_dedupFirst (xs.filter fun y => y != x)⟩
    intro hmem
    have := List.of_mem_filter ((mem_dedupFirst _ _).mp hmem)
    simp at this
termination_by l.length
decreasing_by
  exact Nat.lt_succ_of_le (List.length_filter_le _ _)

theorem dedupFirst_eq_self (l : List String) (h : l.Nodup) : dedupFirst l = l := by
  match l with
  | [] => simp [dedupFirst]
  | x :: xs =>
    rw [dedupFirst]
    obtain ⟨hx, hxs⟩ := List.nodup_cons.mp h
    have hf : xs.filter (fun y => y != x) = xs := by
      apply List.filter_eq_self.mpr
      intro a ha
      have : a ≠ x := fun hax => hx (hax ▸ ha)
      simpa using this
    rw [hf, dedupFirst_eq_self xs hxs]
termination_by l.length
decreasing_by
  exact Nat.lt_succ_of_le le_rfl

theorem foldl_addUnique (l : List String) (acc : List String) :
    List.foldl addUnique acc l
      = acc ++ (dedupFirst l).filter (fun x => !(acc.contains x)) := by
  induction l generalizing acc with
  | nil => simp [dedupFirst]
  | cons x xs ih =>
    rw [List.foldl_cons, ih (addUnique acc x),
      show dedupFirst (x :: xs) = x :: (dedupFirst xs).filter (fun y => y != x) from
        by rw [dedupFirst, dedupFirst_filter]]
    by_cases hx : x ∈ acc
    · have hau : addUnique acc x = acc := by simp [addUnique, hx]
      rw [hau, @List.filter_cons_of_neg String (fun y => !acc.contains y) x
        ((dedupFirst xs).filter fun y => y != x) (by simp [hx]), List.filter_filter]
      congr 1
      apply List.filter_congr
      intro a _
      by_cases hmem : a ∈ acc
      · simp [hmem]
      · have hax : a ≠ x := fun h => hmem (h ▸ hx)
        simp [hmem, hax]
    · have hau : addUnique acc x = acc ++ [x] := by simp [addUnique, hx]
      rw [hau, @List.filter_cons_of_pos String (fun y => !acc.contains y) x
        ((dedupFirst xs).filter fun y => y != x) (by simp [hx]), List.filter_filter]
      have hfilt : (dedupFirst xs).filter (fun y => !((acc ++ [x]).contains y))
          = (dedupFirst xs).filter (fun a => !acc.contains a && (a != x)) := by
        apply List.filter_congr
        intro a _
        by_cases hmem : a ∈ acc
        · simp [hmem]
        · by_cases hax : a = x
          · subst hax; simp [hmem]
          · simp [hmem, hax]
      rw [hfilt, List.append_assoc, List.singleton_append]

theorem processLine_eq (acc : List String) (line : List Char) :
    processLine acc line = List.foldl addUnique acc (lineCandidates line) := by
  simp only [processLine, lineCandidates]
  split
  · rfl
  · rfl

theorem foldl_processLine (lines : List (List Char)) (acc : List String) :
    lines.foldl processLine acc
      = List.foldl addUnique acc (lines.flatMap lineCandidates) := by
  induction lines generalizing acc with
  | nil => simp
  | cons l ls ih =>
    rw [List.foldl_cons, List.flatMap_cons, List.foldl_append, processLine_eq, ih]

theorem notifyCore_eq_dedup (s : String) :
    notifyCore s = dedupFirst (candidateTargets s) := by
  rw [notifyCore, foldl_processLine, ← candidateTargets, foldl_addUnique]
  simp

theorem candidateTargets_empty : candidateTargets "" = [] := by decide

theorem parseNotifyChannels_eq_dedup (s : String) :
    parseNotifyChannels (some (JValue.str s)) = dedupFirst (candidateTargets s) := by
  rw [parseNotifyChannels]
  split
  · rename_i hs
    rw [hs, candidateTargets_empty]
    simp [dedupFirst]
  · exact notifyCore_eq_dedup s

theorem dedupFirst_idem (l : List String) : dedupFirst (dedupFirst l) = dedupFirst l :=
  dedupFirst_eq_self _ (nodup_dedupFirst l)

theorem dedupFirst_eq_foldl (l : List String) :
    dedupFirst l = List.foldl addUnique [] l := by
  rw [foldl_addUnique]
  simp

theorem dedupFirst_dedup_append (l1 l2 : List String) :
    dedupFirst (dedupFirst l1 ++ dedupFirst l2) = dedupFirst (l1 ++ l2) := by
  rw [dedupFirst_eq_foldl (dedupFirst l1 ++ dedupFirst l2), List.foldl_append,
    ← dedupFirst_eq_foldl (dedupFirst l1), dedupFirst_idem,
    dedupFirst_eq_foldl (l1 ++ l2), List.foldl_append, ← dedupFirst_eq_foldl l1,
    foldl_addUnique, foldl_addUnique, dedupFirst_idem]

theorem jsTrim_isInfixOf_self (l : List Char) : jsTrim l <:+: l := by
  have h1 : (l.dropWhile isSpaceChar) <:+ l := List.dropWhile_suffix isSpaceChar
  have h2 : ((l.dropWhile isSpaceChar).reverse.dropWhile isSpaceChar)
      <:+ (l.dropWhile isSpaceChar).reverse := List.dropWhile_suffix isSpaceChar
  have h3 : jsTrim l <+: l.dropWhile isSpaceChar := by
    have := List.reverse_prefix.mpr h2
    rwa [List.reverse_reverse] at this
  exact (h3.isInfix).trans (h1.isInfix)

theorem keywordHit_false_of_no_keyword (line : List Char)
    (h1 : ¬("notify".data <:+: toLowerL line))
    (h2 : ¬("notification".data <:+: toLowerL line)) :
    keywordHit (jsTrim line) = false := by
  have htrim : toLowerL (jsTrim line) <:+: toLowerL line :=
    List.IsInfix.map Char.toLower (jsTrim_isInfixOf_self line)
  rw [keywordHit]
  simp only [hasSubL, Bool.or_eq_false_iff, decide_eq_false_iff_not]
  constructor
  · intro hc
    exact h1 (hc.trans htrim)
  · intro hc
    exact h2 (hc.trans htrim)

theorem pickTarget_eq_find (ts : List String) :
    pickTarget ts = ts.find? channelShaped := by
  induction ts with
  | nil => rfl
  | cons t ts ih =>
    simp only [pickTarget, List.filter_cons, List.find?_cons] at ih ⊢
    by_cases ht : channelShaped t
    · simp [ht]
    · simp [ht, ih]

/-! ## Theorems: the claims -/

/-- C1: for every input text, the list returned by `parseNotifyChannels`
contains no duplicates, every element is one sigil from &#@ followed by
at least one character from letters/digits/hyphen/underscore (and
nothing else), and the list equals the first-occurrence-wins
deduplication of the candidate targets in scan order (lines
top-to-bottom, left-to-right within a line). -/
theorem extractTargets_invariants (s : String) :
    (parseNotifyChannels (some (JValue.str s))).Nodup
    ∧ (∀ t ∈ parseNotifyChannels (some (JValue.str s)), targetShape t = true)
    ∧ parseNotifyChannels (some (JValue.str s)) = dedupFirst (candidateTargets s) := by
  refine ⟨?_, ?_, parseNotifyChannels_eq_dedup s⟩
  · rw [parseNotifyChannels_eq_dedup s]
    exact nodup_dedupFirst _
  · intro t ht
    rw [parseNotifyChannels_eq_dedup s] at ht
    have hmem := (mem_dedupFirst t _).mp ht
    rw [candidateTargets] at hmem
    obtain ⟨line, _, hline⟩ := List.mem_flatMap.mp hmem
    simp only [lineCandidates] at hline
    split at hline
    · exact scanTargets_shape _ t hline
    · simp at hline

/-- C3: a payload that does not parse (`JSON.parse` throws, modelled as
`none`) yields, without raising, the record with every field at its
default: "N/A" strings, absent commentText/taskName/description, false
flags, empty changes and empty notification targets. -/
theorem extractDetails_parse_failure :
    extractWebhookDetails none
      = ⟨"N/A", "N/A", "N/A", "N/A", [], none, false, false, none, false, none, []⟩ := rfl

/-- C8 counterexample: the text "NOTIFY &a" has no line containing the
substring "notify" or "notification" (case-sensitive containment, as the
claim states it), yet extraction returns a nonempty list — the source's
keyword test lowercases the line first. -/
theorem extractTargets_keyword_case_cex :
    (∀ line ∈ splitLines "NOTIFY &a".data,
      hasSubL "notify".data line = false ∧ hasSubL "notification".data line = false)
    ∧ parseNotifyChannels (some (JValue.str "NOTIFY &a")) = ["&a"] := by decide

/-- C8 amended: for every text in which no line contains "notify" or
"notification" case-insensitively (i.e. in its lowercased form), the
extractor returns the empty sequence. -/
theorem extractTargets_no_keyword_empty (s : String)
    (h : ∀ line ∈ splitLines s.data,
      ¬("notify".data <:+: toLowerL line) ∧ ¬("notification".data <:+: toLowerL line)) :
    parseNotifyChannels (some (JValue.str s)) = [] := by
  rw [parseNotifyChannels_eq_dedup]
  have hcand : candidateTargets s = [] := by
    rw [candidateTargets]
    apply List.flatMap_eq_nil_iff.mpr
    intro line hline
    obtain ⟨h1, h2⟩ := h line hline
    simp only [lineCandidates, keywordHit_false_of_no_keyword line h1 h2,
      Bool.false_eq_true, if_false]
  rw [hcand]
  simp [dedupFirst]

/-- C8 amended, witness at the concrete text "hello &x". -/
theorem extractTargets_no_keyword_empty_witness :
    (∀ line ∈ splitLines "hello &x".data,
      ¬("notify".data <:+: toLowerL line) ∧ ¬("notification".data <:+: toLowerL line))
    ∧ parseNotifyChannels (some (JValue.str "hello &x")) = [] :=
  ⟨by decide, extractTargets_no_keyword_empty "hello &x" (by decide)⟩

/-- C10: extraction over two texts joined by a newline is the
first-occurrence-wins deduplication of the concatenation of the two
extractions — scanning is line-local. -/
theorem extractTargets_newline_append (a b : String) :
    parseNotifyChannels (some (JValue.str (a ++ "\n" ++ b)))
      = dedupFirst (parseNotifyChannels (some (JValue.str a))
          ++ parseNotifyChannels (some (JValue.str b))) := by
  have hdata : (a ++ "\n" ++ b).data = a.data ++ '\n' :: b.data := by
    simp [String.data_append]
  rw [parseNotifyChannels_eq_dedup, parseNotifyChannels_eq_dedup,
    parseNotifyChannels_eq_dedup]
  simp only [candidateTargets]
  rw [hdata, splitLines_append, List.flatMap_append]
  exact (dedupFirst_dedup_append _ _).symm

/-- C2: `shouldSendNotification` is true exactly when the event-kind is a
member of the fixed eleven-element allow-list and the extracted
notification targets are non-empty. -/
theorem shouldSendNotification_iff (e : String) (d : Details) :
    shouldSendNotification e d = true
      ↔ ((e = "cardCreate" ∨ e = "cardUpdate" ∨ e = "cardEdit" ∨ e = "cardMove"
          ∨ e = "cardArchive" ∨ e = "cardRestore" ∨ e = "commentCreate"
          ∨ e = "commentUpdate" ∨ e = "taskCreate" ∨ e = "taskUpdate"
          ∨ e = "taskDelete")
        ∧ d.slackTargets ≠ []) := by
  rw [shouldSendNotification, relevantEvents]
  simp [List.length_pos]

/-- C7: the channel choice takes the first target whose first character
is '&' or '#' (first channel-shaped target via `find?`), the configured
default channel when no such target exists (`Option.getD`), and in
particular skips the user-shaped "@john" in favor of "&team". -/
theorem pickTarget_spec :
    (∀ ts : List String,
      pickTarget ts = ts.find? (fun t => jsStartsWith t '&' || jsStartsWith t '#'))
    ∧ (∀ (dflt : Option String) (ts : List String),
        chooseChannel dflt ts
          = (ts.find? (fun t => jsStartsWith t '&' || jsStartsWith t '#')).getD
              (resolvedDefaultChannel dflt))
    ∧ pickTarget ["@john", "&team"] = some "&team" := by
  refine ⟨fun ts => pickTarget_eq_find ts, fun dflt ts => ?_, by decide⟩
  rw [show (fun t => jsStartsWith t '&' || jsStartsWith t '#') = channelShaped from rfl]
  rw [chooseChannel, pickTarget_eq_find]
  rcases h : ts.find? channelShaped with _ | c <;> simp [h]

/-- C9: for card-update (or card-edit) events, the message text renders at
most the first 3 change summaries joined by ", " with a " (+N more)"
suffix when more than 3 exist, and falls back to the generic
"Updated by username" line when there are none. -/
theorem buildSlackMessage_update_text (e : String) (d : Details) (ts : List String)
    (he : e = "cardUpdate" ∨ e = "cardEdit") :
    (buildSlackMessage e d ts).text
      = (if d.changes.isEmpty then
          "✏️ *" ++ d.cardTitle ++ "*\n_Updated by " ++ d.username ++ "_\n"
            ++ d.boardName ++ " › " ++ d.listName ++ userMentionSuffix ts
        else
          "✏️ *" ++ d.cardTitle ++ "*\n_" ++ renderedChangeSummary d.changes ++ "_\n"
            ++ d.username ++ " in " ++ d.boardName ++ " › " ++ d.listName
            ++ userMentionSuffix ts) := by
  rcases he with he | he <;> subst he <;>
  · simp only [buildSlackMessage, renderedChangeSummary]
    by_cases hc : d.changes = []
    · simp [hc]
    · have hpos : 0 < d.changes.length := List.length_pos.mpr hc
      simp [hc, hpos, List.isEmpty_iff, String.append_assoc]

/-- C9 witness: five change summaries render the first three and a
"(+2 more)" suffix. -/
theorem buildSlackMessage_update_text_witness :
    (buildSlackMessage "cardUpdate" witManyChanges []).text
      = (if witManyChanges.changes.isEmpty then
          "✏️ *" ++ witManyChanges.cardTitle ++ "*\n_Updated by "
            ++ witManyChanges.username ++ "_\n" ++ witManyChanges.boardName ++ " › "
            ++ witManyChanges.listName ++ userMentionSuffix []
        else
          "✏️ *" ++ witManyChanges.cardTitle ++ "*\n_"
            ++ renderedChangeSummary witManyChanges.changes ++ "_\n"
            ++ witManyChanges.username ++ " in " ++ witManyChanges.boardName ++ " › "
            ++ witManyChanges.listName ++ userMentionSuffix []) :=
  buildSlackMessage_update_text "cardUpdate" witManyChanges [] (Or.inl rfl)

theorem extractWebhookDetails_some (data itemV : JValue)
    (hitem : jGet (data.getField "data") "item" = some itemV)
    (htruthy : itemV.truthy = true) :
    extractWebhookDetails (some data) = extractBody data itemV := by
  simp only [extractWebhookDetails, hitem, htruthy, if_true]

/-- C5 counterexample: a parsed payload carrying `user.name = "alice"`
but no `data.item`: the source never reaches the username assignment and
returns the default "N/A". -/
theorem username_requires_item_cex :
    jGet (cexUserPayload.getField "user") "name" = some (JValue.str "alice")
    ∧ (extractWebhookDetails (some cexUserPayload)).username = "N/A" := by decide

/-- C5 amended: for every successfully parsed payload whose `data.item`
is present and truthy and on which the source completes without a
TypeError — the event field absent or a string (lines 138, 148),
`included.cards` neither object-shaped nor fronted by a null element
(lines 145, 157), and scalar-or-absent description fields (lines
189-193) — the username of the returned record is computed from the
payload's `user` object alone: `user.name` when present and truthy,
else `user.username` when present and truthy, else "N/A".  The three
safety hypotheses do not feed the computation (in the embedding the
username projection is syntactically independent of them); they bound
the claim to the payloads on which the program actually returns a
record, where the total embedding and the source agree. -/
theorem username_from_user (data itemV : JValue)
    (hitem : jGet (data.getField "data") "item" = some itemV)
    (htruthy : itemV.truthy = true)
    (hev : eventIncludesSafe (data.getField "event") = true)
    (hcards : cardsAccessSafe (jGet (jGet (data.getField "data") "included") "cards") = true)
    (hdesc : descriptionsSafe data itemV = true) :
    (extractWebhookDetails (some data)).username
      = usernameOfUser (data.getField "user") := by
  rw [extractWebhookDetails_some data itemV hitem htruthy]
  rfl

/-- C5 amended, witness at a concrete cardCreate payload (string event,
no `included.cards`, no description fields). -/
theorem username_from_user_witness :
    (extractWebhookDetails (some witCardPayload)).username
      = usernameOfUser (witCardPayload.getField "user") :=
  username_from_user witCardPayload (JValue.obj [("name", JValue.str "Card A")])
    (by decide) (by decide) (by decide) (by decide) (by decide)

theorem cond_comment_eq (e : String) :
    (jTruthy (some (JValue.str e)) &&
      (jIncludes (some (JValue.str e)) "Comment" || jIncludes (some (JValue.str e)) "comment"))
    = containsCommentKeyword e := by
  simp only [jTruthy, JValue.truthy, jIncludes, containsCommentKeyword, hasSubL]
  by_cases he : e = ""
  · subst he; decide
  · simp [he]

theorem cond_task_eq (e : String) :
    (jTruthy (some (JValue.str e)) &&
      (jIncludes (some (JValue.str e)) "task" || jIncludes (some (JValue.str e)) "Task"))
    = containsTaskKeyword e := by
  simp only [jTruthy, JValue.truthy, jIncludes, containsTaskKeyword, hasSubL]
  by_cases he : e = ""
  · subst he; decide
  · simp [he]

/-- C4 counterexample: the event-kind "COMMENT" contains "comment"
case-insensitively, `data.item` is present and truthy, yet the source
does not classify the event as a comment event (its test looks only for
the exact substrings "Comment" and "comment"). -/
theorem eventClassification_cex :
    containsCommentCI "COMMENT" = true
    ∧ jTruthy (jGet (cexCommentPayload.getField "data") "item") = true
    ∧ (extractWebhookDetails (some cexCommentPayload)).isComment = false := by decide

/-- C4 amended: for every parsed payload with a truthy item and a string
event-kind e, the event is classified as a comment event (isComment
true, commentText populated) when e contains "Comment" or "comment" as
an exact substring; otherwise as a task event (isTask true, taskName
populated) when e contains "task" or "Task"; otherwise as a card event
with cardTitle from item.name and description from item.description. -/
theorem eventClassification (data itemV : JValue) (e : String)
    (hev : data.getField "event" = some (JValue.str e))
    (hitem : jGet (data.getField "data") "item" = some itemV)
    (htruthy : itemV.truthy = true) :
    (if containsCommentKeyword e = true then
      (extractWebhookDetails (some data)).isComment = true
        ∧ (extractWebhookDetails (some data)).isTask = false
        ∧ (extractWebhookDetails (some data)).commentText
            = some (jsOrDefault (jvOr (itemV.getField "text") (itemV.getField "content")) "N/A")
    else if containsTaskKeyword e = true then
      (extractWebhookDetails (some data)).isComment = false
        ∧ (extractWebhookDetails (some data)).isTask = true
        ∧ (extractWebhookDetails (some data)).taskName
            = some (jsOrDefault (itemV.getField "name") "N/A")
    else
      (extractWebhookDetails (some data)).isComment = false
        ∧ (extractWebhookDetails (some data)).isTask = false
        ∧ (extractWebhookDetails (some data)).cardTitle
            = jsOrDefault (itemV.getField "name") "N/A"
        ∧ (extractWebhookDetails (some data)).description
            = jvOrNull (itemV.getField "description")) := by
  rw [extractWebhookDetails_some data itemV hitem htruthy]
  simp only [extractBody, hev, cond_comment_eq, cond_task_eq]
  by_cases hcc : containsCommentKeyword e <;> by_cases hct : containsTaskKeyword e <;>
    simp [hcc, hct]

/-- C4 amended, witness at a concrete commentCreate payload. -/
theorem eventClassification_witness :
    (if containsCommentKeyword "commentCreate" = true then
      (extractWebhookDetails (some witCommentPayload)).isComment = true
        ∧ (extractWebhookDetails (some witCommentPayload)).isTask = false
        ∧ (extractWebhookDetails (some witCommentPayload)).commentText
            = some (jsOrDefault
                (jvOr ((JValue.obj [("text", JValue.str "hello")]).getField "text")
                  ((JValue.obj [("text", JValue.str "hello")]).getField "content")) "N/A")
    else if containsTaskKeyword "commentCreate" = true then
      (extractWebhookDetails (some witCommentPayload)).isComment = false
        ∧ (extractWebhookDetails (some witCommentPayload)).isTask = true
        ∧ (extractWebhookDetails (some witCommentPayload)).taskName
            = some (jsOrDefault ((JValue.obj [("text", JValue.str "hello")]).getField "name") "N/A")
    else
      (extractWebhookDetails (some witCommentPayload)).isComment = false
        ∧ (extractWebhookDetails (some witCommentPayload)).isTask = false
        ∧ (extractWebhookDetails (some witCommentPayload)).cardTitle
            = jsOrDefault ((JValue.obj [("text", JValue.str "hello")]).getField "name") "N/A"
        ∧ (extractWebhookDetails (some witCommentPayload)).description
            = jvOrNull ((JValue.obj [("text", JValue.str "hello")]).getField "description")) :=
  eventClassification witCommentPayload (JValue.obj [("text", JValue.str "hello")])
    "commentCreate" (by decide) (by decide) (by decide)

theorem cardUpdateChanges_eq_spec (prevItemV itemV : JValue)
    (prevData included : Option JValue)
    (hprim : fieldsPrimitive prevItemV itemV = true) :
    cardUpdateChanges prevItemV itemV prevData included
      = specChangeSummaries prevItemV itemV
          (jsOrDefault (jGet (jIndex0 (jGet (jGet prevData "included") "lists")) "name") "unknown")
          (jsOrDefault (jGet (jIndex0 (jGet included "lists")) "name") "unknown") := by
  simp only [fieldsPrimitive, changeFieldKeys, List.all_cons, List.all_nil,
    Bool.and_eq_true, Bool.and_true] at hprim
  obtain ⟨⟨h1p, h1i⟩, ⟨h2p, h2i⟩, ⟨h3p, h3i⟩, ⟨h4p, h4i⟩, h5p, h5i⟩ := hprim
  rw [cardUpdateChanges, specChangeSummaries,
    jsStrictNe_eq_decide _ _ h1p h1i, jsStrictNe_eq_decide _ _ h2p h2i,
    jsStrictNe_eq_decide _ _ h3p h3i, jsStrictNe_eq_decide _ _ h4p h4i,
    jsStrictNe_eq_decide _ _ h5p h5i]
  simp [ite_not]

/-- C6: for a parsed payload whose event-kind is exactly "cardUpdate",
with truthy current and previous items whose five compared fields are
primitives (or absent), the change summaries are exactly one entry per
field among name/description/dueDate/listId/isCompleted whose previous
and current values differ by exact equality, in the fixed order title,
description, due date, list, completion; equal fields contribute no
entry (so all-equal gives [], and only-listId-different gives exactly
the one "moved" entry naming the old list from the previous payload's
included lists and the new list). -/
theorem cardUpdate_changes_spec (data itemV prevItemV : JValue)
    (hev : data.getField "event" = some (JValue.str "cardUpdate"))
    (hitem : jGet (data.getField "data") "item" = some itemV)
    (htruthy : itemV.truthy = true)
    (hprev : jGet (data.getField "prevData") "item" = some prevItemV)
    (hptruthy : prevItemV.truthy = true)
    (hprim : fieldsPrimitive prevItemV itemV = true) :
    (extractWebhookDetails (some data)).changes
      = specChangeSummaries prevItemV itemV
          (jsOrDefault
            (jGet (jIndex0 (jGet (jGet (data.getField "prevData") "included") "lists")) "name")
            "unknown")
          (jsOrDefault
            (jGet (jIndex0 (jGet (jGet (data.getField "data") "included") "lists")) "name")
            "unknown") := by
  rw [extractWebhookDetails_some data itemV hitem htruthy]
  simp only [extractBody, hev, hprev, jTruthy, hptruthy, jsEventIs, beq_self_eq_true,
    Bool.true_and, if_true]
  exact cardUpdateChanges_eq_spec prevItemV itemV (data.getField "prevData")
    (jGet (data.getField "data") "included") hprim

/-- C6 witness: a concrete cardUpdate payload where only `listId`
differs. -/
theorem cardUpdate_changes_spec_witness :
    (extractWebhookDetails (some witUpdatePayload)).changes
      = specChangeSummaries (JValue.obj [("name", JValue.str "B"), ("listId", JValue.str "L1")])
          (JValue.obj [("name", JValue.str "B"), ("listId", JValue.str "L2")])
          (jsOrDefault
            (jGet (jIndex0 (jGet (jGet (witUpdatePayload.getField "prevData") "included") "lists")) "name")
            "unknown")
          (jsOrDefault
            (jGet (jIndex0 (jGet (jGet (witUpdatePayload.getField "data") "included") "lists")) "name")
            "unknown") :=
  cardUpdate_changes_spec witUpdatePayload
    (JValue.obj [("name", JValue.str "B"), ("listId", JValue.str "L2")])
    (JValue.obj [("name", JValue.str "B"), ("listId", JValue.str "L1")])
    (by decide) (by decide) (by decide) (by decide) (by decide) (by decide)
